import Mathlib

/-!
# Snake game engine (src/main.go)

A shallow embedding of the simulation core of `main.go`: the random generators
`generateFood` / `generateRocks`, the constructor `newGame`, `Game.Update`,
`Game.Reset` and the key handler installed by `main`.

Modelling conventions
* Go `int` (on a 64-bit platform) and `time.Duration` (an `int64` count of nanoseconds)
  are `GoInt`, the integers from -2^63 to 2^63 - 1. Addition, subtraction and negation
  wrap around as in Go. The untyped constants `width`, `height` and the products of
  `time.Millisecond` are exact integers, converted where they are used.
* `math/rand` is an explicit stream of raw draws, threaded through every function
  that samples. `rand.Intn n` reduces the next draw modulo `n`.
* A `for` loop without a bound (`generateFood`, `generateRocks`) takes a fuel
  argument, one unit per iteration; running dry is the fault `outOfFuel`.
* A Go run-time panic is a fault as well, so each operation returns `Except Fault`.
* The fyne widgets (`scoreText`, the containers) are presentation and are left out.
* The game loop and the key handler run in two goroutines; here a tick and a key event
  are atomic steps taken one after the other.
-/

namespace SnakeGame

/-- Width of the game area in segments (`width = 60`). -/
def width : Int := 60

/-- Height of the game area in segments (`height = 40`). -/
def height : Int := 40

/-- Nanoseconds in `time.Millisecond`. -/
def Millisecond : Int := 1000000

/-- Two's-complement reduction of an integer to 64 bits. -/
def wrap64 (v : Int) : Int :=
  (v + 9223372036854775808) % 18446744073709551616 - 9223372036854775808

/-- A value of Go's `int` or of `int64`. -/
structure GoInt where
  val : Int
  inRange : -9223372036854775808 ≤ val ∧ val ≤ 9223372036854775807

instance : DecidableEq GoInt := fun a b =>
  if h : a.val = b.val then
    isTrue (by cases a; cases b; simp only [GoInt.mk.injEq]; exact h)
  else
    isFalse (fun e => h (by rw [e]))

/-- Conversion of an exact integer to `int`; a value in range is kept as it is. -/
def GoInt.ofInt (v : Int) : GoInt :=
  { val := wrap64 v, inRange := by unfold wrap64; omega }

instance (n : Nat) : OfNat GoInt n := ⟨GoInt.ofInt n⟩

instance : Add GoInt := ⟨fun a b => GoInt.ofInt (a.val + b.val)⟩

instance : Sub GoInt := ⟨fun a b => GoInt.ofInt (a.val - b.val)⟩

instance : Neg GoInt := ⟨fun a => GoInt.ofInt (-a.val)⟩

/-- The struct `Point`. -/
structure Point where
  x : GoInt
  y : GoInt
deriving DecidableEq

/-- The struct `Game`, without the `scoreText` widget. -/
structure Game where
  head : Point
  direction : Point
  food : List Point
  rocks : List Point
  snake : List Point
  score : GoInt
  gameOver : Bool
  speed : GoInt
deriving DecidableEq

/-- Ways in which an operation fails to return. -/
inductive Fault where
  | outOfFuel
  | negativeCap
  | indexOutOfRange
  | sliceBounds
deriving DecidableEq

/-- The random source: the stream of raw draws still to come. -/
abbrev Rng := Nat → Nat

/-- Draws of `rand.Intn n`: the next raw draw reduced modulo `n`, and the rest of the stream. -/
def Intn (n : Int) (r : Rng) : GoInt × Rng :=
  (GoInt.ofInt ((r 0 : Int) % n), fun i => r (i + 1))

/-- The loop of `generateFood`; `occupied` lists the keys of the map that are set. -/
def generateFoodLoop (count : GoInt) (fuel : Nat) (r : Rng) (food occupied : List Point) :
    Except Fault (List Point × Rng) :=
  if (food.length : Int) < count.val then
    match fuel with
    | 0 => .error .outOfFuel
    | n + 1 =>
      let sx := Intn width r
      let sy := Intn height sx.2
      let newFood : Point := { x := sx.1, y := sy.1 }
      if !occupied.contains newFood && !occupied.contains { x := 5, y := 5 } then
        generateFoodLoop count n sy.2 (food ++ [newFood]) (newFood :: occupied)
      else
        generateFoodLoop count n sy.2 food occupied
  else
    .ok (food, r)

/-- The function `generateFood`; `make` with a negative capacity panics. -/
def generateFood (fuel : Nat) (count : GoInt) (r : Rng) : Except Fault (List Point × Rng) :=
  if count.val < 0 then .error .negativeCap else generateFoodLoop count fuel r [] []

/-- The loop of `generateRocks`. -/
def generateRocksLoop (count : GoInt) (fuel : Nat) (r : Rng) (rocks occupied : List Point) :
    Except Fault (List Point × Rng) :=
  if (rocks.length : Int) < count.val then
    match fuel with
    | 0 => .error .outOfFuel
    | n + 1 =>
      let sx := Intn width r
      let sy := Intn height sx.2
      let newRock : Point := { x := sx.1, y := sy.1 }
      if !occupied.contains newRock && !occupied.contains { x := 5, y := 5 } then
        generateRocksLoop count n sy.2 (rocks ++ [newRock]) (newRock :: occupied)
      else
        generateRocksLoop count n sy.2 rocks occupied
  else
    .ok (rocks, r)

/-- The function `generateRocks`. -/
def generateRocks (fuel : Nat) (count : GoInt) (r : Rng) : Except Fault (List Point × Rng) :=
  if count.val < 0 then .error .negativeCap else generateRocksLoop count fuel r [] []

/-- The expression `s[0]` on a slice. -/
def first (s : List Point) : Except Fault Point :=
  match s with
  | [] => .error .indexOutOfRange
  | p :: _ => .ok p

/-- The expression `s[1:]` on a slice; it panics on an empty slice. -/
def from1 (s : List Point) : Except Fault (List Point) :=
  match s with
  | [] => .error .sliceBounds
  | _ :: t => .ok t

/-- The function `newGame`. -/
def newGame (fuel : Nat) (r : Rng) : Except Fault (Game × Rng) :=
  match generateFood fuel 10 r with
  | .error e => .error e
  | .ok (food, r1) =>
    match generateRocks fuel 10 r1 with
    | .error e => .error e
    | .ok (rocks, r2) =>
      .ok ({ head := { x := GoInt.ofInt (width / 2), y := GoInt.ofInt (height / 2) }
             direction := { x := 0, y := 0 }
             food := food
             rocks := rocks
             snake := [{ x := 5, y := 5 }]
             score := 0
             gameOver := false
             speed := GoInt.ofInt (Millisecond * 80) }, r2)

/-- The method `Game.Reset`. -/
def Reset (fuel : Nat) (r : Rng) (g : Game) : Except Fault (Game × Rng) :=
  let g1 := { g with head := { x := GoInt.ofInt (width / 2), y := GoInt.ofInt (height / 2) } }
  let g2 := { g1 with direction := { x := 0, y := 0 } }
  let g3 := { g2 with snake := [{ x := 5, y := 5 }] }
  match generateFood fuel 10 r with
  | .error e => .error e
  | .ok (food, r1) =>
    let g4 := { g3 with food := food }
    match generateRocks fuel 10 r1 with
    | .error e => .error e
    | .ok (rocks, r2) =>
      let g5 := { g4 with rocks := rocks }
      let g6 := { g5 with score := 0 }
      let g7 := { g6 with speed := GoInt.ofInt (80 * Millisecond) }
      .ok ({ g7 with gameOver := false }, r2)

/-- The loop `for i := len(g.snake) - 1; i > 0; i-- { g.snake[i] = g.snake[i-1] }`,
entered with `i = k`. -/
def shiftBody : Nat → List Point → List Point
  | 0, s => s
  | i + 1, s => shiftBody i (s.set (i + 1) (s.getD i { x := 0, y := 0 }))

/-- The block "Move the snake's body" of `Update`. -/
def moveBody (head : Point) (snake : List Point) : List Point :=
  if snake.length > 0 then (shiftBody (snake.length - 1) snake).set 0 head else snake

/-- The test `newX == f.x && newY == f.y`. -/
def hits (newX newY : GoInt) (f : Point) : Bool :=
  newX == f.x && newY == f.y

/-- The speed ramp inside the food branch of `Update`. -/
def rampSpeed (speed : GoInt) : GoInt :=
  if Millisecond * 20 < (speed - GoInt.ofInt (2 * Millisecond)).val then
    speed - GoInt.ofInt (2 * Millisecond)
  else GoInt.ofInt (Millisecond * 20)

/-- The loop "Check for food collision" of `Update`: the body runs for the first entry
that matches, then the loop breaks. -/
def eatFood (fuel : Nat) (r : Rng) (newX newY : GoInt) (g : Game) :
    Except Fault (Game × Rng) :=
  match g.food.findIdx? (hits newX newY) with
  | none => .ok (g, r)
  | some i =>
    let g1 := { g with food := g.food.eraseIdx i }
    let g2 := { g1 with snake := g1.snake ++ [Point.mk g1.head.x g1.head.y] }
    match generateFood fuel 1 r with
    | .error e => .error e
    | .ok (fs, r1) =>
      match first fs with
      | .error e => .error e
      | .ok f =>
        let g3 := { g2 with food := g2.food ++ [f] }
        match generateRocks fuel 1 r1 with
        | .error e => .error e
        | .ok (ks, r2) =>
          match first ks with
          | .error e => .error e
          | .ok k =>
            let g4 := { g3 with rocks := g3.rocks ++ [k] }
            let g5 := { g4 with score := g4.score + 1 }
            .ok ({ g5 with speed := rampSpeed g5.speed }, r2)

/-- The method `Game.Update`. -/
def Update (fuel : Nat) (r : Rng) (g : Game) : Except Fault (Game × Rng) :=
  if g.gameOver then .ok (g, r)
  else
    let newX := g.head.x + g.direction.x
    let newY := g.head.y + g.direction.y
    if newX.val ≥ 0 ∧ newX.val < width ∧ newY.val ≥ 0 ∧ newY.val < height then
      let g1 := { g with snake := moveBody g.head g.snake }
      match eatFood fuel r newX newY g1 with
      | .error e => .error e
      | .ok (g2, r2) =>
        let g3 := if g2.rocks.any (hits newX newY) then { g2 with gameOver := true } else g2
        let g4 := { g3 with head := { x := newX, y := newY } }
        match from1 g4.snake with
        | .error e => .error e
        | .ok rest =>
          if rest.any (hits g4.head.x g4.head.y) then .ok ({ g4 with gameOver := true }, r2)
          else .ok (g4, r2)
    else
      .ok ({ g with direction := { x := 0, y := 0 } }, r)

/-- The key names the handler distinguishes. -/
inductive KeyName where
  | up
  | down
  | left
  | right
  | space
  | other
deriving DecidableEq

/-- The handler passed to `SetOnTypedKey` in `main`, on the game state. -/
def onTypedKey (fuel : Nat) (r : Rng) (ke : KeyName) (g : Game) : Except Fault (Game × Rng) :=
  if g.gameOver then
    if ke = KeyName.space then Reset fuel r g else .ok (g, r)
  else
    match ke with
    | .up => if g.direction.y = 0 then .ok ({ g with direction := { x := 0, y := -1 } }, r)
             else .ok (g, r)
    | .down => if g.direction.y = 0 then .ok ({ g with direction := { x := 0, y := 1 } }, r)
               else .ok (g, r)
    | .left => if g.direction.x = 0 then .ok ({ g with direction := { x := -1, y := 0 } }, r)
               else .ok (g, r)
    | .right => if g.direction.x = 0 then .ok ({ g with direction := { x := 1, y := 0 } }, r)
                else .ok (g, r)
    | _ => .ok (g, r)

/-! ## Vocabulary of the claims -/

/-- The candidate cell `(newX, newY)` computed at the top of `Update`, with Go's wrapping
addition. -/
def candidate (g : Game) : Point :=
  { x := g.head.x + g.direction.x, y := g.head.y + g.direction.y }

/-- The bounds test of `Update`, on a point. -/
def inGrid (p : Point) : Prop :=
  p.x.val ≥ 0 ∧ p.x.val < width ∧ p.y.val ≥ 0 ∧ p.y.val < height

instance (p : Point) : Decidable (inGrid p) := by
  unfold inGrid
  infer_instance

/-- The point built from the next two draws, `Point{x: rand.Intn(width), y: rand.Intn(height)}`. -/
def sample (r : Rng) : Point :=
  { x := (Intn width r).1, y := (Intn height (Intn width r).2).1 }

/-- The random source after one point has been sampled. -/
def afterSample (r : Rng) : Rng :=
  (Intn height (Intn width r).2).2

/-- Runs `n` iterations of the game loop of `main` (one `Update` each). -/
def ticks (fuel : Nat) : Nat → Rng → Game → Except Fault (Game × Rng)
  | 0, r, g => .ok (g, r)
  | n + 1, r, g =>
    match Update fuel r g with
    | .error e => .error e
    | .ok (g1, r1) => ticks fuel n r1 g1

/-- A tick on which `Update` enters the body of its food loop. -/
def eats (g : Game) : Prop :=
  g.gameOver = false ∧ inGrid (candidate g) ∧ candidate g ∈ g.food

instance (g : Game) : Decidable (eats g) := by
  unfold eats
  infer_instance

/-- A random source whose draws count up from zero: the samples are (0,1), (2,3), ... -/
def countingDraws : Rng := fun i => i

/-- The scenario of the spec: head at (5,5) heading right, one food entry at (6,5). -/
def scenarioEat : Game :=
  { head := { x := 5, y := 5 }
    direction := { x := 1, y := 0 }
    food := [{ x := 6, y := 5 }]
    rocks := []
    snake := [{ x := 5, y := 5 }]
    score := 0
    gameOver := false
    speed := GoInt.ofInt (80 * Millisecond) }

/-- A finished game: the head has run into the rock at (7,5). -/
def scenarioOver : Game :=
  { head := { x := 7, y := 5 }
    direction := { x := 1, y := 0 }
    food := [{ x := 1, y := 1 }]
    rocks := [{ x := 7, y := 5 }]
    snake := [{ x := 6, y := 5 }, { x := 5, y := 5 }]
    score := 1
    gameOver := true
    speed := GoInt.ofInt (78 * Millisecond) }

/-- The head on the right edge of the grid, heading outward. -/
def scenarioWall : Game :=
  { head := { x := 59, y := 20 }
    direction := { x := 1, y := 0 }
    food := [{ x := 1, y := 1 }]
    rocks := [{ x := 2, y := 2 }]
    snake := [{ x := 58, y := 20 }, { x := 57, y := 20 }]
    score := 1
    gameOver := false
    speed := GoInt.ofInt (78 * Millisecond) }

/-- Draws that put the first rock on the starting cell of the head: sample number 10
(the first rock of `newGame`) is (30,20), every other sample is as in `countingDraws`. -/
def centreRockDraws : Rng := fun i => if i = 20 then 30 else if i = 21 then 20 else i

/-- The game `newGame` builds from `centreRockDraws`. -/
def startOnRock : Game :=
  { head := { x := 30, y := 20 }
    direction := { x := 0, y := 0 }
    food := [{ x := 0, y := 1 }, { x := 2, y := 3 }, { x := 4, y := 5 }, { x := 6, y := 7 },
      { x := 8, y := 9 }, { x := 10, y := 11 }, { x := 12, y := 13 }, { x := 14, y := 15 },
      { x := 16, y := 17 }, { x := 18, y := 19 }]
    rocks := [{ x := 30, y := 20 }, { x := 22, y := 23 }, { x := 24, y := 25 },
      { x := 26, y := 27 }, { x := 28, y := 29 }, { x := 30, y := 31 }, { x := 32, y := 33 },
      { x := 34, y := 35 }, { x := 36, y := 37 }, { x := 38, y := 39 }]
    snake := [{ x := 5, y := 5 }]
    score := 0
    gameOver := false
    speed := GoInt.ofInt (Millisecond * 80) }

/-- An idle snake of three segments stretched to the left of its head. -/
def scenarioIdle : Game :=
  { head := { x := 10, y := 10 }
    direction := { x := 0, y := 0 }
    food := [{ x := 1, y := 1 }]
    rocks := [{ x := 2, y := 2 }]
    snake := [{ x := 9, y := 10 }, { x := 8, y := 10 }, { x := 7, y := 10 }]
    score := 2
    gameOver := false
    speed := GoInt.ofInt (76 * Millisecond) }

/-- A running game about to move onto a rock. -/
def scenarioRock : Game :=
  { head := { x := 6, y := 5 }
    direction := { x := 1, y := 0 }
    food := [{ x := 1, y := 1 }]
    rocks := [{ x := 7, y := 5 }]
    snake := [{ x := 5, y := 5 }, { x := 4, y := 5 }]
    score := 1
    gameOver := false
    speed := GoInt.ofInt (78 * Millisecond) }

/-- The states the program can be in: what `newGame` or `Reset` return, closed under
`Update` ticks and key events, each with any random source and any fuel. -/
inductive Reachable : Game → Prop where
  | start (fuel : Nat) (r : Rng) (g : Game) (r' : Rng) :
      newGame fuel r = .ok (g, r') → Reachable g
  | reset (fuel : Nat) (r : Rng) (g0 g : Game) (r' : Rng) :
      Reset fuel r g0 = .ok (g, r') → Reachable g
  | tick (fuel : Nat) (r : Rng) (g g' : Game) (r' : Rng) :
      Reachable g → Update fuel r g = .ok (g', r') → Reachable g'
  | key (fuel : Nat) (r : Rng) (ke : KeyName) (g g' : Game) (r' : Rng) :
      Reachable g → onTypedKey fuel r ke g = .ok (g', r') → Reachable g'

/-- The game `newGame` builds from `countingDraws`. -/
def freshStart : Game :=
  { head := { x := 30, y := 20 }
    direction := { x := 0, y := 0 }
    food := [{ x := 0, y := 1 }, { x := 2, y := 3 }, { x := 4, y := 5 }, { x := 6, y := 7 },
      { x := 8, y := 9 }, { x := 10, y := 11 }, { x := 12, y := 13 }, { x := 14, y := 15 },
      { x := 16, y := 17 }, { x := 18, y := 19 }]
    rocks := [{ x := 20, y := 21 }, { x := 22, y := 23 }, { x := 24, y := 25 },
      { x := 26, y := 27 }, { x := 28, y := 29 }, { x := 30, y := 31 }, { x := 32, y := 33 },
      { x := 34, y := 35 }, { x := 36, y := 37 }, { x := 38, y := 39 }]
    snake := [{ x := 5, y := 5 }]
    score := 0
    gameOver := false
    speed := GoInt.ofInt (Millisecond * 80) }

/-- The state `freshStart` after the key "right" and one tick. -/
def afterFirstMove : Game :=
  { freshStart with
    head := { x := 31, y := 20 }
    direction := { x := 1, y := 0 }
    snake := [{ x := 30, y := 20 }] }

/-- The vector a directional key assigns to `direction` in the handler. -/
def commandVector : KeyName → Point
  | .up => { x := 0, y := -1 }
  | .down => { x := 0, y := 1 }
  | .left => { x := -1, y := 0 }
  | .right => { x := 1, y := 0 }
  | _ => { x := 0, y := 0 }

/-- The component of the current direction a directional key tests in the handler. -/
def axisComponent : KeyName → Point → GoInt
  | .up, d => d.y
  | .down, d => d.y
  | .left, d => d.x
  | .right, d => d.x
  | _, _ => 0

/-- The four directional commands. -/
def isDirectional (ke : KeyName) : Prop :=
  ke = KeyName.up ∨ ke = KeyName.down ∨ ke = KeyName.left ∨ ke = KeyName.right

instance (ke : KeyName) : Decidable (isDirectional ke) := by
  unfold isDirectional
  infer_instance

/-- The sample taken by iteration number `k` (from 0) of a generator loop started on `r`. -/
def sampleAt (r : Rng) (k : Nat) : Point :=
  sample (afterSample^[k] r)

/-- Draws whose every sample is the cell (5,5). -/
def spawnDraws : Rng := fun _ => 5

/-- Draws that walk through the grid cell by cell, column after column, for ever, starting
on the cell (5,5): sample `k` is cell number `(k + 205) % 2400`, where cell number `c` is
`(c / 40, c % 40)`. -/
def fairDraws : Rng := fun i =>
  if i % 2 = 0 then ((i / 2 + 205) % 2400) / 40 else ((i / 2 + 205) % 2400) % 40

/-- Draws whose tenth sample is the cell (5,5); the nine samples before it are
(0,1), (2,3), ..., (16,17). -/
def spawnLastDraws : Rng := fun i => if i = 18 ∨ i = 19 then 5 else i

/-- Draws that put the first food entry right of the starting cell of the head: sample
number 0 is (31,20), every other sample is as in `countingDraws`. -/
def foodAheadDraws : Rng := fun i => if i = 0 then 31 else if i = 1 then 20 else i

/-- The game `newGame` builds from `foodAheadDraws`, after the key "right". -/
def headingToFood : Game :=
  { freshStart with
    direction := { x := 1, y := 0 }
    food := [{ x := 31, y := 20 }, { x := 2, y := 3 }, { x := 4, y := 5 }, { x := 6, y := 7 },
      { x := 8, y := 9 }, { x := 10, y := 11 }, { x := 12, y := 13 }, { x := 14, y := 15 },
      { x := 16, y := 17 }, { x := 18, y := 19 }] }


/-! ## Auxiliary facts about 64-bit integers -/

theorem wrap64_of_inRange (v : Int)
    (h : -9223372036854775808 ≤ v ∧ v ≤ 9223372036854775807) : wrap64 v = v := by
  unfold wrap64
  omega

theorem GoInt.eq_of_val (a b : GoInt) (h : a.val = b.val) : a = b := by
  cases a
  cases b
  simp only [GoInt.mk.injEq]
  exact h

theorem GoInt.ofInt_val (a : GoInt) : GoInt.ofInt a.val = a :=
  GoInt.eq_of_val _ _ (wrap64_of_inRange a.val a.inRange)

theorem GoInt.val_ofInt (v : Int)
    (h : -9223372036854775808 ≤ v ∧ v ≤ 9223372036854775807) : (GoInt.ofInt v).val = v :=
  wrap64_of_inRange v h

theorem GoInt.add_val (a b : GoInt) : (a + b).val = wrap64 (a.val + b.val) := rfl

theorem GoInt.sub_val (a b : GoInt) : (a - b).val = wrap64 (a.val - b.val) := rfl

theorem GoInt.add_zero (a : GoInt) : a + 0 = a := by
  apply GoInt.eq_of_val
  rw [GoInt.add_val]
  have h0 : (0 : GoInt).val = 0 := rfl
  rw [h0, Int.add_zero]
  exact wrap64_of_inRange a.val a.inRange

/-! ## Auxiliary facts about the loops -/

theorem shiftBody_length (i : Nat) (s : List Point) : (shiftBody i s).length = s.length := by
  induction i generalizing s with
  | zero => rfl
  | succ i ih => simp [shiftBody, ih]

theorem shiftBody_append (i : Nat) (a b : List Point) (h : i < a.length) :
    shiftBody i (a ++ b) = shiftBody i a ++ b := by
  induction i generalizing a with
  | zero => rfl
  | succ i ih =>
    have h1 : i < a.length := by omega
    simp only [shiftBody]
    rw [List.set_append_left _ _ h, List.getD_append _ _ _ _ h1]
    exact ih _ (by simpa using h1)

theorem shiftBody_cons (x : Point) (a : List Point) :
    shiftBody a.length (x :: a) = x :: (x :: a).dropLast := by
  induction a using List.reverseRecOn with
  | nil => rfl
  | append_singleton a z ih =>
    have hlen : (a ++ [z]).length = a.length + 1 := by simp
    rw [hlen]
    simp only [shiftBody]
    have e1 : x :: (a ++ [z]) = (x :: a) ++ [z] := rfl
    rw [e1]
    have e2 : ((x :: a) ++ [z]).set (a.length + 1) (((x :: a) ++ [z]).getD a.length { x := 0, y := 0 })
        = (x :: a) ++ [(x :: a).getD a.length { x := 0, y := 0 }] := by
      rw [List.getD_append _ _ _ _ (by simp)]
      rw [List.set_append_right _ _ (by simp)]
      simp
    rw [e2, shiftBody_append _ _ _ (by simp), ih]
    have e3 : (x :: a).dropLast ++ [(x :: a).getD a.length { x := 0, y := 0 }] = x :: a := by
      have hne : (x :: a) ≠ [] := by simp
      have := List.dropLast_append_getLast hne
      rw [List.getLast_eq_getElem] at this
      simpa [List.getD_eq_getElem] using this
    rw [List.dropLast_concat, List.cons_append, e3]

theorem moveBody_eq (head : Point) (s : List Point) :
    moveBody head s = if s = [] then [] else head :: s.dropLast := by
  cases s with
  | nil => simp [moveBody]
  | cons x a =>
    have : (x :: a).length - 1 = a.length := by simp
    simp only [moveBody, this, shiftBody_cons]
    simp

theorem hits_iff (x y : GoInt) (f : Point) : hits x y f = true ↔ f = { x := x, y := y } := by
  cases f with
  | mk fx fy =>
    simp only [hits, Bool.and_eq_true, beq_iff_eq, Point.mk.injEq]
    constructor
    · rintro ⟨h1, h2⟩
      exact ⟨h1.symm, h2.symm⟩
    · rintro ⟨h1, h2⟩
      exact ⟨h1.symm, h2.symm⟩

theorem any_hits_iff (x y : GoInt) (l : List Point) :
    l.any (hits x y) = true ↔ ({ x := x, y := y } : Point) ∈ l := by
  simp only [List.any_eq_true, hits_iff]
  constructor
  · rintro ⟨f, hf, rfl⟩
    exact hf
  · intro h
    exact ⟨_, h, rfl⟩

theorem generateFoodLoop_done (count : GoInt) (fuel : Nat) (r : Rng)
    (food occupied : List Point) (h : count.val ≤ (food.length : Int)) :
    generateFoodLoop count fuel r food occupied = .ok (food, r) := by
  unfold generateFoodLoop
  rw [if_neg (by omega)]

theorem generateRocksLoop_done (count : GoInt) (fuel : Nat) (r : Rng)
    (rocks occupied : List Point) (h : count.val ≤ (rocks.length : Int)) :
    generateRocksLoop count fuel r rocks occupied = .ok (rocks, r) := by
  unfold generateRocksLoop
  rw [if_neg (by omega)]

theorem generateFood_one (n : Nat) (r : Rng) :
    generateFood (n + 1) 1 r = .ok ([sample r], afterSample r) := by
  have h1 : (1 : GoInt).val = 1 := rfl
  simp [generateFood, generateFoodLoop, sample, afterSample, generateFoodLoop_done, h1]

theorem generateRocks_one (n : Nat) (r : Rng) :
    generateRocks (n + 1) 1 r = .ok ([sample r], afterSample r) := by
  have h1 : (1 : GoInt).val = 1 := rfl
  simp [generateRocks, generateRocksLoop, sample, afterSample, generateRocksLoop_done, h1]

theorem eatFood_none (fuel : Nat) (r : Rng) (x y : GoInt) (g : Game)
    (h : g.food.findIdx? (hits x y) = none) : eatFood fuel r x y g = .ok (g, r) := by
  simp [eatFood, h]

theorem eatFood_some (n : Nat) (r : Rng) (x y : GoInt) (g : Game) (i : Nat)
    (h : g.food.findIdx? (hits x y) = some i) :
    eatFood (n + 1) r x y g =
      .ok ({ g with
              food := g.food.eraseIdx i ++ [sample r]
              snake := g.snake ++ [g.head]
              rocks := g.rocks ++ [sample (afterSample r)]
              score := g.score + 1
              speed := rampSpeed g.speed }, afterSample (afterSample r)) := by
  simp [eatFood, h, generateFood_one, generateRocks_one, first]

theorem findIdx_none_iff (x y : GoInt) (l : List Point) :
    l.findIdx? (hits x y) = none ↔ ({ x := x, y := y } : Point) ∉ l := by
  rw [List.findIdx?_eq_none_iff]
  constructor
  · intro h hm
    have := h _ hm
    rw [(hits_iff x y _).2 rfl] at this
    exact absurd this (by simp)
  · intro h f hf
    cases hh : hits x y f with
    | false => rfl
    | true =>
      rw [hits_iff] at hh
      exact absurd (hh ▸ hf) h

theorem Update_terminal (fuel : Nat) (r : Rng) (g : Game) (h : g.gameOver = true) :
    Update fuel r g = .ok (g, r) := by
  simp [Update, h]

theorem Update_wall (fuel : Nat) (r : Rng) (g : Game) (h : g.gameOver = false)
    (hout : ¬ inGrid (candidate g)) :
    Update fuel r g = .ok ({ g with direction := { x := 0, y := 0 } }, r) := by
  unfold inGrid candidate at hout
  simp only [Update, h]
  rw [if_neg hout]
  simp

theorem Update_move (fuel : Nat) (r : Rng) (g : Game) (h : g.gameOver = false)
    (hin : inGrid (candidate g)) :
    Update fuel r g =
      match eatFood fuel r (candidate g).x (candidate g).y
          { g with snake := moveBody g.head g.snake } with
      | .error e => .error e
      | .ok (g2, r2) =>
        match from1 g2.snake with
        | .error e => .error e
        | .ok rest =>
          .ok ({ g2 with
                  head := candidate g
                  gameOver := g2.gameOver || g2.rocks.any (hits (candidate g).x (candidate g).y)
                    || rest.any (hits (candidate g).x (candidate g).y) }, r2) := by
  have hin1 : (g.head.x + g.direction.x).val ≥ 0 ∧ (g.head.x + g.direction.x).val < width ∧
      (g.head.y + g.direction.y).val ≥ 0 ∧ (g.head.y + g.direction.y).val < height := hin
  unfold Update
  rw [if_neg (by simp [h])]
  simp only []
  rw [if_pos hin1]
  simp only [candidate]
  cases eatFood fuel r (g.head.x + g.direction.x) (g.head.y + g.direction.y)
      { g with snake := moveBody g.head g.snake } with
  | error e => rfl
  | ok res =>
    obtain ⟨g2, r2⟩ := res
    simp only []
    cases hr : g2.rocks.any (hits (g.head.x + g.direction.x) (g.head.y + g.direction.y)) with
    | false =>
      simp only [Bool.false_eq_true, if_false]
      cases from1 g2.snake with
      | error e => rfl
      | ok rest =>
        simp only []
        cases hs : rest.any (hits (g.head.x + g.direction.x) (g.head.y + g.direction.y)) <;>
          simp
    | true =>
      simp only [if_true]
      cases from1 g2.snake with
      | error e => rfl
      | ok rest =>
        simp only []
        cases hs : rest.any (hits (g.head.x + g.direction.x) (g.head.y + g.direction.y)) <;>
          simp

theorem Update_plain (fuel : Nat) (r : Rng) (g : Game) (h : g.gameOver = false)
    (hin : inGrid (candidate g)) (hfood : candidate g ∉ g.food) (hbody : g.snake ≠ []) :
    Update fuel r g =
      .ok ({ g with
              snake := g.head :: g.snake.dropLast
              head := candidate g
              gameOver := g.rocks.any (hits (candidate g).x (candidate g).y)
                || g.snake.dropLast.any (hits (candidate g).x (candidate g).y) }, r) := by
  have hnone := (findIdx_none_iff (candidate g).x (candidate g).y g.food).2 hfood
  rw [Update_move fuel r g h hin,
    eatFood_none fuel r _ _ { g with snake := moveBody g.head g.snake } hnone]
  simp [moveBody_eq, hbody, from1, h]

theorem Update_plain_empty (fuel : Nat) (r : Rng) (g : Game) (h : g.gameOver = false)
    (hin : inGrid (candidate g)) (hfood : candidate g ∉ g.food) (hbody : g.snake = []) :
    Update fuel r g = .error .sliceBounds := by
  have hnone := (findIdx_none_iff (candidate g).x (candidate g).y g.food).2 hfood
  rw [Update_move fuel r g h hin,
    eatFood_none fuel r _ _ { g with snake := moveBody g.head g.snake } hnone]
  simp [moveBody_eq, hbody, from1]

theorem Update_eat (n : Nat) (r : Rng) (g : Game) (i : Nat) (h : g.gameOver = false)
    (hin : inGrid (candidate g))
    (hfood : g.food.findIdx? (hits (candidate g).x (candidate g).y) = some i) :
    Update (n + 1) r g =
      .ok ({ g with
              food := g.food.eraseIdx i ++ [sample r]
              snake := moveBody g.head g.snake ++ [g.head]
              rocks := g.rocks ++ [sample (afterSample r)]
              score := g.score + 1
              speed := rampSpeed g.speed
              head := candidate g
              gameOver := (g.rocks ++ [sample (afterSample r)]).any
                  (hits (candidate g).x (candidate g).y)
                || (moveBody g.head g.snake ++ [g.head]).tail.any
                  (hits (candidate g).x (candidate g).y) }, afterSample (afterSample r)) := by
  rw [Update_move (n + 1) r g h hin,
    eatFood_some n r _ _ { g with snake := moveBody g.head g.snake } i hfood]
  cases hm : moveBody g.head g.snake with
  | nil => simp [from1, h]
  | cons a l => simp [from1, h]

theorem findIdx_some_of_mem (x y : GoInt) (l : List Point)
    (h : ({ x := x, y := y } : Point) ∈ l) : ∃ i, l.findIdx? (hits x y) = some i := by
  cases hf : l.findIdx? (hits x y) with
  | none => exact absurd h ((findIdx_none_iff x y l).1 hf)
  | some i => exact ⟨i, rfl⟩

theorem ticks_terminal (fuel : Nat) (n : Nat) (r : Rng) (g : Game) (h : g.gameOver = true) :
    ticks fuel n r g = .ok (g, r) := by
  induction n with
  | zero => rfl
  | succ n ih => simp [ticks, Update_terminal fuel r g h, ih]

theorem any_hits_candidate (g : Game) (l : List Point) :
    l.any (hits (candidate g).x (candidate g).y) = true ↔ candidate g ∈ l :=
  any_hits_iff (candidate g).x (candidate g).y l

theorem Update_returns (fuel : Nat) (r : Rng) (g : Game) (hfuel : 1 ≤ fuel)
    (hbody : g.snake ≠ []) : ∃ g' r', Update fuel r g = .ok (g', r') := by
  obtain ⟨n, rfl⟩ : ∃ n, fuel = n + 1 := ⟨fuel - 1, by omega⟩
  cases hover : g.gameOver with
  | true => exact ⟨_, _, Update_terminal _ r g hover⟩
  | false =>
    by_cases hin : inGrid (candidate g)
    · by_cases hfood : candidate g ∈ g.food
      · obtain ⟨i, hi⟩ := findIdx_some_of_mem (candidate g).x (candidate g).y g.food hfood
        exact ⟨_, _, Update_eat n r g i hover hin hi⟩
      · exact ⟨_, _, Update_plain _ r g hover hin hfood hbody⟩
    · exact ⟨_, _, Update_wall _ r g hover hin⟩

theorem candidate_idle (g : Game) (hdir : g.direction = { x := 0, y := 0 }) :
    candidate g = g.head := by
  cases g with
  | mk head direction food rocks snake score gameOver speed =>
    cases head
    simp only at hdir
    simp only [candidate, hdir, GoInt.add_zero]

theorem rampSpeed_spec (s : GoInt) (h : 20 * Millisecond ≤ s.val) :
    (rampSpeed s).val = max (20 * Millisecond) (s.val - 2 * Millisecond) ∧
      20 * Millisecond ≤ (rampSpeed s).val ∧ (rampSpeed s).val ≤ s.val := by
  have hr := s.inRange
  unfold rampSpeed Millisecond at *
  have h2 : (GoInt.ofInt (2 * 1000000)).val = 2000000 := rfl
  have h20 : (GoInt.ofInt (1000000 * 20)).val = 20000000 := rfl
  have hsub : (s - GoInt.ofInt (2 * 1000000)).val = s.val - 2000000 := by
    rw [GoInt.sub_val, h2]
    exact wrap64_of_inRange _ (by omega)
  rw [max_def]
  split <;> split <;> omega

theorem eatFood_zero (r : Rng) (x y : GoInt) (g : Game) (i : Nat)
    (h : g.food.findIdx? (hits x y) = some i) : eatFood 0 r x y g = .error .outOfFuel := by
  have h1 : (1 : GoInt).val = 1 := rfl
  simp [eatFood, h, generateFood, generateFoodLoop, h1]

theorem Update_eat_zero (r : Rng) (g : Game) (h : g.gameOver = false)
    (hin : inGrid (candidate g)) (hfood : candidate g ∈ g.food) :
    Update 0 r g = .error .outOfFuel := by
  obtain ⟨i, hi⟩ := findIdx_some_of_mem (candidate g).x (candidate g).y g.food hfood
  rw [Update_move 0 r g h hin,
    eatFood_zero r _ _ { g with snake := moveBody g.head g.snake } i hi]

theorem newGame_ok (fuel : Nat) (r : Rng) (g : Game) (r' : Rng)
    (h : newGame fuel r = .ok (g, r')) :
    g.head = { x := 30, y := 20 } ∧ g.snake = [{ x := 5, y := 5 }] ∧
      g.speed.val = 80 * Millisecond := by
  unfold newGame at h
  cases hf : generateFood fuel 10 r with
  | error e => simp [hf] at h
  | ok fr =>
    obtain ⟨food, r1⟩ := fr
    cases hk : generateRocks fuel 10 r1 with
    | error e => simp [hf, hk] at h
    | ok kr =>
      obtain ⟨rocks, r2⟩ := kr
      simp only [hf, hk, Except.ok.injEq, Prod.mk.injEq] at h
      obtain ⟨rfl, -⟩ := h
      exact ⟨rfl, rfl, rfl⟩

theorem Reset_ok (fuel : Nat) (r : Rng) (g0 g : Game) (r' : Rng)
    (h : Reset fuel r g0 = .ok (g, r')) :
    g.head = { x := 30, y := 20 } ∧ g.snake = [{ x := 5, y := 5 }] ∧
      g.speed.val = 80 * Millisecond := by
  unfold Reset at h
  cases hf : generateFood fuel 10 r with
  | error e => simp [hf] at h
  | ok fr =>
    obtain ⟨food, r1⟩ := fr
    cases hk : generateRocks fuel 10 r1 with
    | error e => simp [hf, hk] at h
    | ok kr =>
      obtain ⟨rocks, r2⟩ := kr
      simp only [hf, hk, Except.ok.injEq, Prod.mk.injEq] at h
      obtain ⟨rfl, -⟩ := h
      exact ⟨rfl, rfl, rfl⟩

theorem mem_moveBody (head : Point) (s : List Point) (p : Point) (h : p ∈ moveBody head s) :
    p = head ∨ p ∈ s := by
  rw [moveBody_eq] at h
  split at h
  · simp at h
  · rcases List.mem_cons.1 h with h1 | h1
    · exact Or.inl h1
    · exact Or.inr (List.dropLast_subset s h1)

theorem Update_preserves (fuel : Nat) (r : Rng) (g g' : Game) (r' : Rng)
    (hU : Update fuel r g = .ok (g', r'))
    (hinv : inGrid g.head ∧ (∀ p ∈ g.snake, inGrid p) ∧ g.snake ≠ [] ∧
      20 * Millisecond ≤ g.speed.val) :
    inGrid g'.head ∧ (∀ p ∈ g'.snake, inGrid p) ∧ g'.snake ≠ [] ∧
      20 * Millisecond ≤ g'.speed.val := by
  obtain ⟨hh, hs, hne, hsp⟩ := hinv
  cases hover : g.gameOver with
  | true =>
    rw [Update_terminal _ r g hover] at hU
    simp only [Except.ok.injEq, Prod.mk.injEq] at hU
    obtain ⟨rfl, -⟩ := hU
    exact ⟨hh, hs, hne, hsp⟩
  | false =>
    by_cases hin : inGrid (candidate g)
    · by_cases hfood : candidate g ∈ g.food
      · cases fuel with
        | zero =>
          rw [Update_eat_zero r g hover hin hfood] at hU
          exact absurd hU (by simp)
        | succ n =>
          obtain ⟨i, hi⟩ := findIdx_some_of_mem (candidate g).x (candidate g).y g.food hfood
          rw [Update_eat n r g i hover hin hi] at hU
          simp only [Except.ok.injEq, Prod.mk.injEq] at hU
          obtain ⟨rfl, -⟩ := hU
          refine ⟨hin, ?_, by simp, (rampSpeed_spec g.speed hsp).2.1⟩
          intro p hp
          rcases List.mem_append.1 hp with h1 | h1
          · rcases mem_moveBody _ _ _ h1 with h2 | h2
            · exact h2 ▸ hh
            · exact hs p h2
          · rw [List.mem_singleton] at h1
            exact h1 ▸ hh
      · rw [Update_plain _ r g hover hin hfood hne] at hU
        simp only [Except.ok.injEq, Prod.mk.injEq] at hU
        obtain ⟨rfl, -⟩ := hU
        refine ⟨hin, ?_, by simp, hsp⟩
        intro p hp
        rcases List.mem_cons.1 hp with h1 | h1
        · exact h1 ▸ hh
        · exact hs p (List.dropLast_subset _ h1)
    · rw [Update_wall _ r g hover hin] at hU
      simp only [Except.ok.injEq, Prod.mk.injEq] at hU
      obtain ⟨rfl, -⟩ := hU
      exact ⟨hh, hs, hne, hsp⟩

theorem onTypedKey_preserves (fuel : Nat) (r : Rng) (ke : KeyName) (g g' : Game) (r' : Rng)
    (hK : onTypedKey fuel r ke g = .ok (g', r'))
    (hinv : inGrid g.head ∧ (∀ p ∈ g.snake, inGrid p) ∧ g.snake ≠ [] ∧
      20 * Millisecond ≤ g.speed.val) :
    inGrid g'.head ∧ (∀ p ∈ g'.snake, inGrid p) ∧ g'.snake ≠ [] ∧
      20 * Millisecond ≤ g'.speed.val := by
  have hstart : ∀ q : Game, q.head = { x := 30, y := 20 } ∧ q.snake = [{ x := 5, y := 5 }] ∧
      q.speed.val = 80 * Millisecond →
      inGrid q.head ∧ (∀ p ∈ q.snake, inGrid p) ∧ q.snake ≠ [] ∧
        20 * Millisecond ≤ q.speed.val := by
    rintro q ⟨h1, h2, h3⟩
    rw [h1, h2, h3]
    refine ⟨by decide, ?_, by simp, by decide⟩
    intro p hp
    rw [List.mem_singleton] at hp
    rw [hp]
    decide
  unfold onTypedKey at hK
  cases hover : g.gameOver with
  | true =>
    simp only [hover, if_true] at hK
    by_cases hsp : ke = KeyName.space
    · rw [if_pos hsp] at hK
      exact hstart g' (Reset_ok fuel r g g' r' hK)
    · rw [if_neg hsp] at hK
      simp only [Except.ok.injEq, Prod.mk.injEq] at hK
      obtain ⟨rfl, -⟩ := hK
      exact hinv
  | false =>
    simp only [hover, Bool.false_eq_true, if_false] at hK
    cases ke <;> simp only at hK <;>
      first
      | (split at hK <;> simp only [Except.ok.injEq, Prod.mk.injEq] at hK <;>
          obtain ⟨rfl, -⟩ := hK <;> exact hinv)
      | (simp only [Except.ok.injEq, Prod.mk.injEq] at hK
         obtain ⟨rfl, -⟩ := hK
         exact hinv)

theorem reachable_invariant (g : Game) (h : Reachable g) :
    inGrid g.head ∧ (∀ p ∈ g.snake, inGrid p) ∧ g.snake ≠ [] ∧ 20 * Millisecond ≤ g.speed.val := by
  have hstart : ∀ q : Game, q.head = { x := 30, y := 20 } ∧ q.snake = [{ x := 5, y := 5 }] ∧
      q.speed.val = 80 * Millisecond →
      inGrid q.head ∧ (∀ p ∈ q.snake, inGrid p) ∧ q.snake ≠ [] ∧
        20 * Millisecond ≤ q.speed.val := by
    rintro q ⟨h1, h2, h3⟩
    rw [h1, h2, h3]
    refine ⟨by decide, ?_, by simp, by decide⟩
    intro p hp
    rw [List.mem_singleton] at hp
    rw [hp]
    decide
  induction h with
  | start fuel r g r' h0 => exact hstart g (newGame_ok fuel r g r' h0)
  | reset fuel r g0 g r' h0 => exact hstart g (Reset_ok fuel r g0 g r' h0)
  | tick fuel r g g' r' _ hU ih => exact Update_preserves fuel r g g' r' hU ih
  | key fuel r ke g g' r' _ hK ih => exact onTypedKey_preserves fuel r ke g g' r' hK ih

theorem afterFirstMove_reachable : Reachable afterFirstMove :=
  Reachable.tick 0 countingDraws { freshStart with direction := { x := 1, y := 0 } }
    afterFirstMove countingDraws
    (Reachable.key 0 countingDraws KeyName.right freshStart _ countingDraws
      (Reachable.start 10 countingDraws freshStart (fun i => countingDraws (i + 40)) rfl) rfl)
    rfl

theorem generateFoodLoop_stuck (count : GoInt) (fuel : Nat) (r : Rng) (food occupied : List Point)
    (hocc : ({ x := 5, y := 5 } : Point) ∈ occupied) (hlen : (food.length : Int) < count.val) :
    generateFoodLoop count fuel r food occupied = .error .outOfFuel := by
  induction fuel generalizing r with
  | zero =>
    unfold generateFoodLoop
    rw [if_pos hlen]
  | succ n ih =>
    unfold generateFoodLoop
    rw [if_pos hlen]
    have hc : occupied.contains ({ x := 5, y := 5 } : Point) = true := by
      simpa using hocc
    simp only [hc, Bool.not_true, Bool.and_false, Bool.false_eq_true, if_false]
    exact ih _

theorem generateRocksLoop_stuck (count : GoInt) (fuel : Nat) (r : Rng)
    (rocks occupied : List Point)
    (hocc : ({ x := 5, y := 5 } : Point) ∈ occupied) (hlen : (rocks.length : Int) < count.val) :
    generateRocksLoop count fuel r rocks occupied = .error .outOfFuel := by
  induction fuel generalizing r with
  | zero =>
    unfold generateRocksLoop
    rw [if_pos hlen]
  | succ n ih =>
    unfold generateRocksLoop
    rw [if_pos hlen]
    have hc : occupied.contains ({ x := 5, y := 5 } : Point) = true := by
      simpa using hocc
    simp only [hc, Bool.not_true, Bool.and_false, Bool.false_eq_true, if_false]
    exact ih _

theorem generateFood_spawn_first (fuel : Nat) (count : GoInt) (r : Rng) (hcount : 2 ≤ count.val)
    (hfirst : sample r = { x := 5, y := 5 }) :
    generateFood fuel count r = .error .outOfFuel := by
  unfold generateFood
  rw [if_neg (by omega)]
  cases fuel with
  | zero =>
    unfold generateFoodLoop
    rw [if_pos (by simp; omega)]
  | succ n =>
    unfold generateFoodLoop
    rw [if_pos (by simp; omega)]
    simp only [List.contains_nil, Bool.not_false, Bool.and_self, if_true, List.nil_append]
    exact generateFoodLoop_stuck count n _ _ _ (by rw [← sample, hfirst]; simp) (by simp; omega)

theorem generateRocks_spawn_first (fuel : Nat) (count : GoInt) (r : Rng) (hcount : 2 ≤ count.val)
    (hfirst : sample r = { x := 5, y := 5 }) :
    generateRocks fuel count r = .error .outOfFuel := by
  unfold generateRocks
  rw [if_neg (by omega)]
  cases fuel with
  | zero =>
    unfold generateRocksLoop
    rw [if_pos (by simp; omega)]
  | succ n =>
    unfold generateRocksLoop
    rw [if_pos (by simp; omega)]
    simp only [List.contains_nil, Bool.not_false, Bool.and_self, if_true, List.nil_append]
    exact generateRocksLoop_stuck count n _ _ _ (by rw [← sample, hfirst]; simp) (by simp; omega)

theorem afterSample_iterate (r : Rng) (k : Nat) :
    afterSample^[k] r = fun i => r (i + 2 * k) := by
  induction k with
  | zero => rfl
  | succ k ih =>
    rw [Function.iterate_succ_apply', ih]
    funext i
    simp only [afterSample, Intn]
    congr 1
    omega

theorem sampleAt_eq (r : Rng) (k : Nat) :
    sampleAt r k =
      { x := GoInt.ofInt ((r (2 * k) : Int) % 60), y := GoInt.ofInt ((r (2 * k + 1) : Int) % 40) } := by
  simp only [sampleAt, afterSample_iterate, sample, Intn, width, height, Point.mk.injEq]
  constructor
  · congr 4
    omega
  · congr 4
    omega

theorem fairDraws_fair (p : Point) (hp : inGrid p) (N : Nat) :
    ∃ k, N ≤ k ∧ sampleAt fairDraws k = p := by
  obtain ⟨px, py⟩ := p
  obtain ⟨h1, h2, h3, h4⟩ := hp
  simp only [width, height] at h1 h2 h3 h4
  obtain ⟨a, ha⟩ := Int.eq_ofNat_of_zero_le h1
  obtain ⟨b, hb⟩ := Int.eq_ofNat_of_zero_le h3
  have ha60 : a < 60 := by omega
  have hb40 : b < 40 := by omega
  refine ⟨2400 * N + (a * 40 + b + 2195) % 2400, by omega, ?_⟩
  rw [sampleAt_eq]
  simp only [fairDraws, Point.mk.injEq]
  have e0 : (2 * (2400 * N + (a * 40 + b + 2195) % 2400)) % 2 = 0 := by omega
  have e1 : ¬ (2 * (2400 * N + (a * 40 + b + 2195) % 2400) + 1) % 2 = 0 := by omega
  rw [if_pos e0, if_neg e1]
  constructor
  · apply GoInt.eq_of_val
    rw [GoInt.val_ofInt _ (by omega)]
    omega
  · apply GoInt.eq_of_val
    rw [GoInt.val_ofInt _ (by omega)]
    omega

theorem headingToFood_reachable : Reachable headingToFood :=
  Reachable.key 0 countingDraws KeyName.right
    { headingToFood with direction := { x := 0, y := 0 } } headingToFood countingDraws
    (Reachable.start 10 foodAheadDraws _ (fun i => foodAheadDraws (i + 40)) rfl) rfl

/-! ## The claims -/

/-- C2: in a state whose `gameOver` flag is set, `Update` returns the state as it is
(head, direction, snake, food, rocks, score, speed and gameOver all unchanged), and so
does every number of repeated ticks. -/
theorem terminal_is_absorbing (fuel : Nat) (r : Rng) (g : Game) (hover : g.gameOver = true) :
    (∃ g' r', Update fuel r g = .ok (g', r') ∧
      g'.head = g.head ∧ g'.direction = g.direction ∧ g'.snake = g.snake ∧
      g'.food = g.food ∧ g'.rocks = g.rocks ∧ g'.score = g.score ∧
      g'.speed = g.speed ∧ g'.gameOver = g.gameOver) ∧
    ∀ n, ∃ r', ticks fuel n r g = .ok (g, r') :=
  ⟨⟨g, r, Update_terminal fuel r g hover, rfl, rfl, rfl, rfl, rfl, rfl, rfl, rfl⟩,
    fun n => ⟨r, ticks_terminal fuel n r g hover⟩⟩

/-- Witness of C2 on a finished game. -/
theorem terminal_is_absorbing_witness :
    scenarioOver.gameOver = true ∧
    ((∃ g' r', Update 0 countingDraws scenarioOver = .ok (g', r') ∧
      g'.head = scenarioOver.head ∧ g'.direction = scenarioOver.direction ∧
      g'.snake = scenarioOver.snake ∧ g'.food = scenarioOver.food ∧
      g'.rocks = scenarioOver.rocks ∧ g'.score = scenarioOver.score ∧
      g'.speed = scenarioOver.speed ∧ g'.gameOver = scenarioOver.gameOver) ∧
    ∀ n, ∃ r', ticks 0 n countingDraws scenarioOver = .ok (scenarioOver, r')) :=
  ⟨by decide, terminal_is_absorbing 0 countingDraws scenarioOver (by decide)⟩

/-- C3: a tick of a game with a non-empty body returns; and whenever a tick of a running
game returns, `gameOver` is true afterwards if and only if the candidate cell (the sum
`Update` computes, in Go's `int` arithmetic) is inside the grid and equals a rock of the post-tick rock list or an element of the post-tick body
list other than its first (so it stays false in every other case); a tick never turns
`gameOver` from true to false. -/
theorem gameOver_after_tick (fuel : Nat) (r : Rng) (g : Game) (hfuel : 1 ≤ fuel) :
    (g.snake ≠ [] → ∃ g' r', Update fuel r g = .ok (g', r')) ∧
    ∀ g' r', Update fuel r g = .ok (g', r') →
      (g.gameOver = false →
        (g'.gameOver = true ↔
          inGrid (candidate g) ∧ (candidate g ∈ g'.rocks ∨ candidate g ∈ g'.snake.tail))) ∧
      (g.gameOver = true → g'.gameOver = true) := by
  refine ⟨Update_returns fuel r g hfuel, ?_⟩
  intro g' r' hU
  obtain ⟨n, rfl⟩ : ∃ n, fuel = n + 1 := ⟨fuel - 1, by omega⟩
  cases hover : g.gameOver with
  | true =>
    rw [Update_terminal _ r g hover] at hU
    simp only [Except.ok.injEq, Prod.mk.injEq] at hU
    obtain ⟨rfl, -⟩ := hU
    simp [hover]
  | false =>
    refine ⟨fun _ => ?_, fun h => absurd h (by simp)⟩
    by_cases hin : inGrid (candidate g)
    · by_cases hfood : candidate g ∈ g.food
      · obtain ⟨i, hi⟩ := findIdx_some_of_mem (candidate g).x (candidate g).y g.food hfood
        rw [Update_eat n r g i hover hin hi] at hU
        simp only [Except.ok.injEq, Prod.mk.injEq] at hU
        obtain ⟨rfl, -⟩ := hU
        simp only [Bool.or_eq_true, any_hits_candidate, hin, true_and]
      · by_cases hbody : g.snake = []
        · rw [Update_plain_empty _ r g hover hin hfood hbody] at hU
          exact absurd hU (by simp)
        · rw [Update_plain _ r g hover hin hfood hbody] at hU
          simp only [Except.ok.injEq, Prod.mk.injEq] at hU
          obtain ⟨rfl, -⟩ := hU
          simp only [Bool.or_eq_true, any_hits_candidate, hin, true_and, List.tail_cons]
    · rw [Update_wall _ r g hover hin] at hU
      simp only [Except.ok.injEq, Prod.mk.injEq] at hU
      obtain ⟨rfl, -⟩ := hU
      simp [hover, hin]

/-- Witness of C3: moving onto a rock ends the game. -/
theorem gameOver_after_tick_witness :
    (1 ≤ 1 ∧ scenarioRock.snake ≠ [] ∧ scenarioRock.gameOver = false ∧
      inGrid (candidate scenarioRock) ∧ candidate scenarioRock ∈ scenarioRock.rocks) ∧
    ((scenarioRock.snake ≠ [] → ∃ g' r', Update 1 countingDraws scenarioRock = .ok (g', r')) ∧
    ∀ g' r', Update 1 countingDraws scenarioRock = .ok (g', r') →
      (scenarioRock.gameOver = false →
        (g'.gameOver = true ↔
          inGrid (candidate scenarioRock) ∧
            (candidate scenarioRock ∈ g'.rocks ∨ candidate scenarioRock ∈ g'.snake.tail))) ∧
      (scenarioRock.gameOver = true → g'.gameOver = true)) :=
  ⟨⟨by decide, by decide, by decide, by decide, by decide⟩,
    gameOver_after_tick 1 countingDraws scenarioRock (by decide)⟩

/-- C4: on a tick of a running game whose candidate cell (the sum `Update` computes, in
Go's `int` arithmetic) is outside the grid, `Update` returns with the head unmoved, direction (0,0), `gameOver` still false, and snake, food,
rocks, score and speed unchanged. -/
theorem wall_halts_snake (fuel : Nat) (r : Rng) (g : Game) (hrun : g.gameOver = false)
    (hout : (candidate g).x.val < 0 ∨ (candidate g).x.val ≥ 60 ∨ (candidate g).y.val < 0 ∨
      (candidate g).y.val ≥ 40) :
    ∃ g' r', Update fuel r g = .ok (g', r') ∧
      g'.head = g.head ∧ g'.direction = { x := 0, y := 0 } ∧ g'.gameOver = false ∧
      g'.snake = g.snake ∧ g'.food = g.food ∧ g'.rocks = g.rocks ∧
      g'.score = g.score ∧ g'.speed = g.speed := by
  have hng : ¬ inGrid (candidate g) := by
    unfold inGrid width height
    omega
  exact ⟨_, _, Update_wall fuel r g hrun hng, rfl, rfl, hrun, rfl, rfl, rfl, rfl, rfl⟩

/-- Witness of C4 with the head on the right edge. -/
theorem wall_halts_snake_witness :
    (scenarioWall.gameOver = false ∧ (candidate scenarioWall).x.val ≥ 60) ∧
    ∃ g' r', Update 0 countingDraws scenarioWall = .ok (g', r') ∧
      g'.head = scenarioWall.head ∧ g'.direction = { x := 0, y := 0 } ∧
      g'.gameOver = false ∧ g'.snake = scenarioWall.snake ∧ g'.food = scenarioWall.food ∧
      g'.rocks = scenarioWall.rocks ∧ g'.score = scenarioWall.score ∧
      g'.speed = scenarioWall.speed :=
  ⟨⟨by decide, by decide⟩,
    wall_halts_snake 0 countingDraws scenarioWall (by decide) (Or.inr (Or.inl (by decide)))⟩

/-- C5, refuted as stated: the game `newGame` builds from `centreRockDraws` is running
with direction (0,0), yet one tick moves its body element from (5,5) to (30,20) and sets
`gameOver`. -/
theorem idle_tick_counterexample :
    (∃ r', newGame 10 centreRockDraws = .ok (startOnRock, r')) ∧
    startOnRock.gameOver = false ∧ startOnRock.direction = { x := 0, y := 0 } ∧
    ∃ g' r', Update 1 countingDraws startOnRock = .ok (g', r') ∧
      startOnRock.snake = [{ x := 5, y := 5 }] ∧ g'.snake = [{ x := 30, y := 20 }] ∧
      g'.gameOver = true :=
  ⟨⟨_, rfl⟩, rfl, rfl, _, _, rfl, rfl, rfl, rfl⟩

/-- C5, amended: a tick of a running game with direction (0,0) and a non-empty body
returns; whenever such a tick returns, head and direction are unchanged; if the head is
outside the grid, body and `gameOver` are unchanged too; if the head is inside the grid the
body is shifted as on any move (the head's cell in front, the old body without its last
element behind it, and one more copy of the head's cell at the end when a food entry lies
on the head's cell) and `gameOver` is true afterwards exactly when the head's cell equals a
post-tick rock or a post-tick body element other than the first. -/
theorem idle_tick_shifts_body (fuel : Nat) (r : Rng) (g : Game) (hfuel : 1 ≤ fuel)
    (hrun : g.gameOver = false) (hdir : g.direction = { x := 0, y := 0 }) :
    (g.snake ≠ [] → ∃ g' r', Update fuel r g = .ok (g', r')) ∧
    ∀ g' r', Update fuel r g = .ok (g', r') →
      g'.head = g.head ∧ g'.direction = { x := 0, y := 0 } ∧
      (¬ inGrid g.head → g'.snake = g.snake ∧ g'.gameOver = false) ∧
      (inGrid g.head →
        (g.head ∉ g.food → g'.snake = g.head :: g.snake.dropLast) ∧
        (g.head ∈ g.food →
          g'.snake = (if g.snake = [] then [] else g.head :: g.snake.dropLast) ++ [g.head]) ∧
        (g'.gameOver = true ↔ g.head ∈ g'.rocks ∨ g.head ∈ g'.snake.tail)) := by
  refine ⟨Update_returns fuel r g hfuel, ?_⟩
  intro g' r' hU
  obtain ⟨n, rfl⟩ : ∃ n, fuel = n + 1 := ⟨fuel - 1, by omega⟩
  have hc := candidate_idle g hdir
  by_cases hin : inGrid (candidate g)
  · by_cases hfood : candidate g ∈ g.food
    · obtain ⟨i, hi⟩ := findIdx_some_of_mem (candidate g).x (candidate g).y g.food hfood
      rw [Update_eat n r g i hrun hin hi] at hU
      simp only [Except.ok.injEq, Prod.mk.injEq] at hU
      obtain ⟨rfl, -⟩ := hU
      rw [hc] at hin hfood
      refine ⟨hc, hdir, fun h => absurd hin h, fun _ => ⟨fun h => absurd hfood h, fun _ => by rw [moveBody_eq], ?_⟩⟩
      simp only [Bool.or_eq_true, hc, any_hits_iff]
    · by_cases hbody : g.snake = []
      · rw [Update_plain_empty _ r g hrun hin hfood hbody] at hU
        exact absurd hU (by simp)
      · rw [Update_plain _ r g hrun hin hfood hbody] at hU
        simp only [Except.ok.injEq, Prod.mk.injEq] at hU
        obtain ⟨rfl, -⟩ := hU
        rw [hc] at hin hfood
        refine ⟨hc, hdir, fun h => absurd hin h,
          fun _ => ⟨fun _ => rfl, fun h => absurd h hfood, ?_⟩⟩
        simp only [Bool.or_eq_true, hc, any_hits_iff, List.tail_cons]
  · rw [Update_wall _ r g hrun hin] at hU
    simp only [Except.ok.injEq, Prod.mk.injEq] at hU
    obtain ⟨rfl, -⟩ := hU
    rw [hc] at hin
    exact ⟨rfl, rfl, fun _ => ⟨rfl, hrun⟩, fun h => absurd h hin⟩

/-- Witness of the amended C5 on an idle snake of three segments. -/
theorem idle_tick_shifts_body_witness :
    (1 ≤ 1 ∧ scenarioIdle.gameOver = false ∧ scenarioIdle.direction = { x := 0, y := 0 }) ∧
    ((scenarioIdle.snake ≠ [] → ∃ g' r', Update 1 countingDraws scenarioIdle = .ok (g', r')) ∧
    ∀ g' r', Update 1 countingDraws scenarioIdle = .ok (g', r') →
      g'.head = scenarioIdle.head ∧ g'.direction = { x := 0, y := 0 } ∧
      (¬ inGrid scenarioIdle.head → g'.snake = scenarioIdle.snake ∧ g'.gameOver = false) ∧
      (inGrid scenarioIdle.head →
        (scenarioIdle.head ∉ scenarioIdle.food →
          g'.snake = scenarioIdle.head :: scenarioIdle.snake.dropLast) ∧
        (scenarioIdle.head ∈ scenarioIdle.food →
          g'.snake = (if scenarioIdle.snake = [] then []
            else scenarioIdle.head :: scenarioIdle.snake.dropLast) ++ [scenarioIdle.head]) ∧
        (g'.gameOver = true ↔
          scenarioIdle.head ∈ g'.rocks ∨ scenarioIdle.head ∈ g'.snake.tail))) :=
  ⟨⟨by decide, by decide, by decide⟩,
    idle_tick_shifts_body 1 countingDraws scenarioIdle (by decide) (by decide) (by decide)⟩

/-- C6: a reachable state has speed at least 20 ms and a non-empty body; and from any
state with speed at least 20 ms a tick returns when the body is non-empty, and whenever a
tick returns the new speed is at most the old one and at least 20 ms, equal to
max(20 ms, old speed - 2 ms) on a tick that eats food and equal to the old speed on every
other tick. -/
theorem speed_ramp (fuel : Nat) (r : Rng) (g : Game) (hfuel : 1 ≤ fuel) :
    (Reachable g → 20 * Millisecond ≤ g.speed.val ∧ g.snake ≠ []) ∧
    (20 * Millisecond ≤ g.speed.val →
      (g.snake ≠ [] → ∃ g' r', Update fuel r g = .ok (g', r')) ∧
      ∀ g' r', Update fuel r g = .ok (g', r') →
        g'.speed.val ≤ g.speed.val ∧ 20 * Millisecond ≤ g'.speed.val ∧
        (eats g → g'.speed.val = max (20 * Millisecond) (g.speed.val - 2 * Millisecond)) ∧
        (¬ eats g → g'.speed = g.speed)) := by
  refine ⟨fun h => ⟨(reachable_invariant g h).2.2.2, (reachable_invariant g h).2.2.1⟩, ?_⟩
  intro hsp
  refine ⟨Update_returns fuel r g hfuel, ?_⟩
  intro g' r' hU
  obtain ⟨n, rfl⟩ : ∃ n, fuel = n + 1 := ⟨fuel - 1, by omega⟩
  cases hover : g.gameOver with
  | true =>
    rw [Update_terminal _ r g hover] at hU
    simp only [Except.ok.injEq, Prod.mk.injEq] at hU
    obtain ⟨rfl, -⟩ := hU
    exact ⟨le_refl _, hsp, fun h => absurd h.1 (by simp [hover]), fun _ => rfl⟩
  | false =>
    by_cases hin : inGrid (candidate g)
    · by_cases hfood : candidate g ∈ g.food
      · obtain ⟨i, hi⟩ := findIdx_some_of_mem (candidate g).x (candidate g).y g.food hfood
        rw [Update_eat n r g i hover hin hi] at hU
        simp only [Except.ok.injEq, Prod.mk.injEq] at hU
        obtain ⟨rfl, -⟩ := hU
        have hr := rampSpeed_spec g.speed hsp
        exact ⟨hr.2.2, hr.2.1, fun _ => hr.1, fun h => absurd ⟨hover, hin, hfood⟩ h⟩
      · by_cases hbody : g.snake = []
        · rw [Update_plain_empty _ r g hover hin hfood hbody] at hU
          exact absurd hU (by simp)
        · rw [Update_plain _ r g hover hin hfood hbody] at hU
          simp only [Except.ok.injEq, Prod.mk.injEq] at hU
          obtain ⟨rfl, -⟩ := hU
          exact ⟨le_refl _, hsp, fun h => absurd h.2.2 hfood, fun _ => rfl⟩
    · rw [Update_wall _ r g hover hin] at hU
      simp only [Except.ok.injEq, Prod.mk.injEq] at hU
      obtain ⟨rfl, -⟩ := hU
      exact ⟨le_refl _, hsp, fun h => absurd h.2.1 hin, fun _ => rfl⟩

/-- Witness of C6 on a reachable state that is about to eat: the game `newGame` builds
from `foodAheadDraws`, after the key "right". -/
theorem speed_ramp_witness :
    (1 ≤ 1 ∧ Reachable headingToFood ∧ 20 * Millisecond ≤ headingToFood.speed.val ∧
      headingToFood.snake ≠ [] ∧ eats headingToFood) ∧
    ((Reachable headingToFood →
      20 * Millisecond ≤ headingToFood.speed.val ∧ headingToFood.snake ≠ []) ∧
    (20 * Millisecond ≤ headingToFood.speed.val →
      (headingToFood.snake ≠ [] →
        ∃ g' r', Update 1 countingDraws headingToFood = .ok (g', r')) ∧
      ∀ g' r', Update 1 countingDraws headingToFood = .ok (g', r') →
        g'.speed.val ≤ headingToFood.speed.val ∧ 20 * Millisecond ≤ g'.speed.val ∧
        (eats headingToFood →
          g'.speed.val = max (20 * Millisecond) (headingToFood.speed.val - 2 * Millisecond)) ∧
        (¬ eats headingToFood → g'.speed = headingToFood.speed))) :=
  ⟨⟨by decide, headingToFood_reachable, by decide, by decide, by decide⟩,
    speed_ramp 1 countingDraws headingToFood (by decide)⟩

/-- C7: in every state reachable from `newGame` or `Reset` by `Update` ticks and key
events, the head and every element of the body list lie inside the grid:
0 <= x < 60 and 0 <= y < 40. -/
theorem reachable_in_grid (g : Game) (h : Reachable g) :
    (0 ≤ g.head.x.val ∧ g.head.x.val < 60 ∧ 0 ≤ g.head.y.val ∧ g.head.y.val < 40) ∧
    ∀ p ∈ g.snake, 0 ≤ p.x.val ∧ p.x.val < 60 ∧ 0 ≤ p.y.val ∧ p.y.val < 40 := by
  have hinv := reachable_invariant g h
  exact ⟨hinv.1, hinv.2.1⟩

/-- Witness of C7 on the state reached by `newGame`, the key "right" and one tick. -/
theorem reachable_in_grid_witness :
    Reachable afterFirstMove ∧
    ((0 ≤ afterFirstMove.head.x.val ∧ afterFirstMove.head.x.val < 60 ∧
        0 ≤ afterFirstMove.head.y.val ∧ afterFirstMove.head.y.val < 40) ∧
      ∀ p ∈ afterFirstMove.snake,
        0 ≤ p.x.val ∧ p.x.val < 60 ∧ 0 ≤ p.y.val ∧ p.y.val < 40) :=
  ⟨afterFirstMove_reachable, reachable_in_grid afterFirstMove afterFirstMove_reachable⟩

/-- C8: for each of the four directional commands, in a running game the handler returns
without drawing, sets `direction` to the command's unit vector when the current
direction's component on the command's axis is 0 and leaves `direction` unchanged when
that component is not 0, so the exact opposite of the current direction is rejected, and
no other field changes; in a finished game the handler returns the whole state
unchanged. -/
theorem direction_keys (fuel : Nat) (r : Rng) (ke : KeyName) (g : Game)
    (hke : isDirectional ke) :
    (g.gameOver = false →
      ∃ g', onTypedKey fuel r ke g = .ok (g', r) ∧
        (axisComponent ke g.direction = 0 → g'.direction = commandVector ke) ∧
        (axisComponent ke g.direction ≠ 0 → g'.direction = g.direction) ∧
        (g.direction.x = -(commandVector ke).x ∧ g.direction.y = -(commandVector ke).y →
          g'.direction = g.direction) ∧
        g'.head = g.head ∧ g'.snake = g.snake ∧ g'.food = g.food ∧ g'.rocks = g.rocks ∧
        g'.score = g.score ∧ g'.speed = g.speed ∧ g'.gameOver = g.gameOver) ∧
    (g.gameOver = true → onTypedKey fuel r ke g = .ok (g, r)) := by
  constructor
  · intro hrun
    rcases hke with rfl | rfl | rfl | rfl
    · by_cases h0 : g.direction.y = 0
      · refine ⟨{ g with direction := { x := 0, y := -1 } }, by simp [onTypedKey, hrun, h0],
          fun _ => rfl, fun h => absurd h0 h, ?_, rfl, rfl, rfl, rfl, rfl, rfl, rfl⟩
        rintro ⟨-, hy⟩
        rw [h0] at hy
        exact absurd hy (by decide)
      · exact ⟨g, by simp [onTypedKey, hrun, h0], fun h => absurd h h0, fun _ => rfl,
          fun _ => rfl, rfl, rfl, rfl, rfl, rfl, rfl, rfl⟩
    · by_cases h0 : g.direction.y = 0
      · refine ⟨{ g with direction := { x := 0, y := 1 } }, by simp [onTypedKey, hrun, h0],
          fun _ => rfl, fun h => absurd h0 h, ?_, rfl, rfl, rfl, rfl, rfl, rfl, rfl⟩
        rintro ⟨-, hy⟩
        rw [h0] at hy
        exact absurd hy (by decide)
      · exact ⟨g, by simp [onTypedKey, hrun, h0], fun h => absurd h h0, fun _ => rfl,
          fun _ => rfl, rfl, rfl, rfl, rfl, rfl, rfl, rfl⟩
    · by_cases h0 : g.direction.x = 0
      · refine ⟨{ g with direction := { x := -1, y := 0 } }, by simp [onTypedKey, hrun, h0],
          fun _ => rfl, fun h => absurd h0 h, ?_, rfl, rfl, rfl, rfl, rfl, rfl, rfl⟩
        rintro ⟨hx, -⟩
        rw [h0] at hx
        exact absurd hx (by decide)
      · exact ⟨g, by simp [onTypedKey, hrun, h0], fun h => absurd h h0, fun _ => rfl,
          fun _ => rfl, rfl, rfl, rfl, rfl, rfl, rfl, rfl⟩
    · by_cases h0 : g.direction.x = 0
      · refine ⟨{ g with direction := { x := 1, y := 0 } }, by simp [onTypedKey, hrun, h0],
          fun _ => rfl, fun h => absurd h0 h, ?_, rfl, rfl, rfl, rfl, rfl, rfl, rfl⟩
        rintro ⟨hx, -⟩
        rw [h0] at hx
        exact absurd hx (by decide)
      · exact ⟨g, by simp [onTypedKey, hrun, h0], fun h => absurd h h0, fun _ => rfl,
          fun _ => rfl, rfl, rfl, rfl, rfl, rfl, rfl, rfl⟩
  · intro hover
    rcases hke with rfl | rfl | rfl | rfl <;> simp [onTypedKey, hover]

/-- Witness of C8: the game is heading right, (1,0), and the key "left" is pressed. -/
theorem direction_keys_witness :
    isDirectional KeyName.left ∧
    ((scenarioEat.gameOver = false →
      ∃ g', onTypedKey 0 countingDraws KeyName.left scenarioEat = .ok (g', countingDraws) ∧
        (axisComponent KeyName.left scenarioEat.direction = 0 →
          g'.direction = commandVector KeyName.left) ∧
        (axisComponent KeyName.left scenarioEat.direction ≠ 0 →
          g'.direction = scenarioEat.direction) ∧
        (scenarioEat.direction.x = -(commandVector KeyName.left).x ∧
            scenarioEat.direction.y = -(commandVector KeyName.left).y →
          g'.direction = scenarioEat.direction) ∧
        g'.head = scenarioEat.head ∧ g'.snake = scenarioEat.snake ∧
        g'.food = scenarioEat.food ∧ g'.rocks = scenarioEat.rocks ∧
        g'.score = scenarioEat.score ∧ g'.speed = scenarioEat.speed ∧
        g'.gameOver = scenarioEat.gameOver) ∧
    (scenarioEat.gameOver = true →
      onTypedKey 0 countingDraws KeyName.left scenarioEat = .ok (scenarioEat, countingDraws))) :=
  ⟨by decide, direction_keys 0 countingDraws KeyName.left scenarioEat (by decide)⟩

/-- C9, evaluated on the code: `generateFood(1)` and `generateRocks(1)` return the list
[(5,5)] when the sample drawn is (5,5), with any fuel of at least one iteration;
`generateFood(10)` returns a list that ends in (5,5) when (5,5) is the tenth sample; and
the scenario tick that eats, run on such draws, appends (5,5) to food and to rocks. -/
theorem generators_accept_spawn_cell :
    (∀ n, generateFood (n + 1) 1 spawnDraws = .ok ([{ x := 5, y := 5 }], afterSample spawnDraws)) ∧
    (∀ n, generateRocks (n + 1) 1 spawnDraws =
      .ok ([{ x := 5, y := 5 }], afterSample spawnDraws)) ∧
    (∃ fs r', generateFood 10 10 spawnLastDraws = .ok (fs, r') ∧
      ({ x := 5, y := 5 } : Point) ∈ fs) ∧
    (∃ ks r', generateRocks 10 10 spawnLastDraws = .ok (ks, r') ∧
      ({ x := 5, y := 5 } : Point) ∈ ks) ∧
    (∃ g' r', Update 1 spawnDraws scenarioEat = .ok (g', r') ∧
      g'.food = [{ x := 5, y := 5 }] ∧ g'.rocks = [{ x := 5, y := 5 }]) :=
  ⟨fun n => generateFood_one n spawnDraws, fun n => generateRocks_one n spawnDraws,
    ⟨_, _, rfl, by decide⟩, ⟨_, _, rfl, by decide⟩, ⟨_, _, rfl, rfl, rfl⟩⟩

/-- C10, evaluated on the code: `fairDraws` yields every grid cell infinitely often, yet
on it `generateFood(2)`, `generateRocks(2)` and `newGame` exhaust every fuel: the first
sample (5,5) is accepted and every later sample is rejected. -/
theorem generators_stall_after_spawn_cell :
    (∀ p, inGrid p → ∀ N, ∃ k, N ≤ k ∧ sampleAt fairDraws k = p) ∧
    (∀ fuel, generateFood fuel 2 fairDraws = .error .outOfFuel) ∧
    (∀ fuel, generateRocks fuel 2 fairDraws = .error .outOfFuel) ∧
    (∀ fuel, newGame fuel fairDraws = .error .outOfFuel) := by
  have hfirst : sample fairDraws = { x := 5, y := 5 } := by decide
  refine ⟨fairDraws_fair, fun fuel => generateFood_spawn_first fuel 2 _ (by decide) hfirst,
    fun fuel => generateRocks_spawn_first fuel 2 _ (by decide) hfirst, fun fuel => ?_⟩
  unfold newGame
  rw [generateFood_spawn_first fuel 10 _ (by decide) hfirst]

end SnakeGame
